import Mathlib

/-!
Shallow embedding of the ModbusBaby-go core: the data converter
(`pkg/datatypes`), the Modbus client (`internal/modbus/client.go`) and the
GUI polling scheduler (`internal/gui/app_refined.go`), with theorems
settling the specification claims.

Go values are modelled as follows: `uint16`/`byte` values are `Nat` with
explicit `% 2^w` masks exactly where Go truncates; Go strings and byte
slices are `List Nat` (their byte sequences); `nil` slices are `none`;
fallible calls return `Except`.  `math.Float32frombits`/`Float32bits` (and
the 64-bit pair) are mutually inverse bit reinterpretations in Go, so
FLOAT32/FLOAT64 values are represented by their IEEE-754 bit patterns.
-/

namespace ModbusBaby

/-- Go string / byte slice as its byte sequence. -/
abbrev GoStr := List Nat

/-- DataType enumeration from pkg/datatypes. -/
inductive DataType where
  | BYTE
  | INT16
  | UINT16
  | INT32
  | UINT32
  | INT64
  | UINT64
  | FLOAT32
  | FLOAT64
  | BOOL
  | ASCII
  | UNIX_TIMESTAMP
deriving DecidableEq, Repr

/-- ByteOrder: AB = big endian within a register, BA = little endian. -/
inductive ByteOrder where
  | AB
  | BA
deriving DecidableEq, Repr

/-- WordOrder: 1234 = most-significant register first, 4321 = least first. -/
inductive WordOrder where
  | WORD_1234
  | WORD_4321
deriving DecidableEq, Repr

/-- RegistersPerValue from pkg/datatypes. -/
def DataType.RegistersPerValue : DataType → Nat
  | .BYTE | .INT16 | .UINT16 | .BOOL => 1
  | .INT32 | .UINT32 | .FLOAT32 | .UNIX_TIMESTAMP => 2
  | .INT64 | .UINT64 | .FLOAT64 => 4
  | .ASCII => 1

/-- Converter struct from pkg/datatypes. -/
structure Converter where
  byteOrder : ByteOrder
  wordOrder : WordOrder
deriving DecidableEq, Repr

/-- NewConverter. -/
def NewConverter (bo : ByteOrder) (wo : WordOrder) : Converter := ⟨bo, wo⟩

/-- Error taxonomy of the Go code (Go errors are strings; modelled as tags,
with the data the message interpolates). -/
inductive GoError where
  | notConnected
  | transport
  | conversionFailed
  | emptyRegisters
  | unsupportedToRegisters
  | emptyValueString
  | invalidValue (dt : DataType) (token : GoStr)
  | unsupportedParse (dt : DataType)
deriving DecidableEq, Repr

/-- Dynamically typed decoded value (`interface\x7b\x7d` results of
`ConvertFromRegisters`).  FLOAT32/FLOAT64 carry IEEE-754 bit patterns
(`math.Float32frombits` is a bit reinterpretation).  `timestamp (some e)`
stands for the Go string `time.Unix(e,0).Format("2006-01-02 15:04:05")`,
whose rendering depends on the local time zone; the model keeps the epoch
seconds.  `timestamp none` is the fixed invalid-timestamp placeholder. -/
inductive Value where
  | bytes (bs : List Nat)
  | i16s (xs : List Int)
  | u16s (xs : List Nat)
  | i32s (xs : List Int)
  | u32s (xs : List Nat)
  | i64s (xs : List Int)
  | u64s (xs : List Nat)
  | f32s (bits : List Nat)
  | f64s (bits : List Nat)
  | bools (xs : List Bool)
  | str (bs : GoStr)
  | timestamp (epoch : Option Nat)
deriving DecidableEq, Repr

/-- Go `int16(v)` reinterpretation of a uint16 bit pattern. -/
def int16Of (v : Nat) : Int := if v < 32768 then (v : Int) else (v : Int) - 65536

/-- Go `uint16(v)` of an int16 value (two's complement bits). -/
def uint16Of (i : Int) : Nat := (i % 65536).toNat

/-- Go `int32(v)` reinterpretation of a uint32 bit pattern. -/
def int32Of (v : Nat) : Int := if v < 2147483648 then (v : Int) else (v : Int) - 4294967296

/-- Go `uint32(v)` of an int32 value (two's complement bits). -/
def uint32Of (i : Int) : Nat := (i % 4294967296).toNat

/-- Go `int64(v)` reinterpretation of a uint64 bit pattern. -/
def int64Of (v : Nat) : Int :=
  if v < 9223372036854775808 then (v : Int) else (v : Int) - 18446744073709551616

/-- Go `uint64(v)` of an int64 value (two's complement bits). -/
def uint64Of (i : Int) : Nat := (i % 18446744073709551616).toNat

/-- convertToBytes: two bytes per register, order per ByteOrder. -/
def Converter.convertToBytes (c : Converter) (registers : List Nat) : List Nat :=
  registers.foldr (fun reg acc =>
    (if c.byteOrder = .AB then [(reg >>> 8) % 256, reg &&& 0xFF]
     else [reg &&& 0xFF, (reg >>> 8) % 256]) ++ acc) []

/-- convertToInt16Array. -/
def Converter.convertToInt16Array (_c : Converter) (registers : List Nat) : List Int :=
  registers.map int16Of

/-- convertToUint16Array (returns the registers unchanged). -/
def Converter.convertToUint16Array (_c : Converter) (registers : List Nat) : List Nat :=
  registers

/-- Assembly of one 32-bit value from two registers per WordOrder
(`uint32(registers[i])<<16 | uint32(registers[i+1])` or swapped). -/
def assemble32 (wo : WordOrder) (a b : Nat) : Nat :=
  if wo = .WORD_1234 then a <<< 16 ||| b else b <<< 16 ||| a

/-- Assembly of one 64-bit value from four registers per WordOrder. -/
def assemble64 (wo : WordOrder) (a b c d : Nat) : Nat :=
  if wo = .WORD_1234 then a <<< 48 ||| b <<< 32 ||| c <<< 16 ||| d
  else d <<< 48 ||| c <<< 32 ||| b <<< 16 ||| a

/-- convertToUint32Array: pairs of registers, trailing incomplete pair dropped. -/
def Converter.convertToUint32Array (c : Converter) : List Nat → List Nat
  | a :: b :: rest => assemble32 c.wordOrder a b :: c.convertToUint32Array rest
  | _ => []

/-- convertToInt32Array. -/
def Converter.convertToInt32Array (c : Converter) : List Nat → List Int
  | a :: b :: rest => int32Of (assemble32 c.wordOrder a b) :: c.convertToInt32Array rest
  | _ => []

/-- convertToFloat32Array: same 32-bit assembly; values kept as bit patterns. -/
def Converter.convertToFloat32Array (c : Converter) : List Nat → List Nat
  | a :: b :: rest => assemble32 c.wordOrder a b :: c.convertToFloat32Array rest
  | _ => []

/-- convertToUint64Array: groups of four registers, incomplete group dropped. -/
def Converter.convertToUint64Array (c : Converter) : List Nat → List Nat
  | a :: b :: d :: e :: rest => assemble64 c.wordOrder a b d e :: c.convertToUint64Array rest
  | _ => []

/-- convertToInt64Array. -/
def Converter.convertToInt64Array (c : Converter) : List Nat → List Int
  | a :: b :: d :: e :: rest => int64Of (assemble64 c.wordOrder a b d e) :: c.convertToInt64Array rest
  | _ => []

/-- convertToFloat64Array: same 64-bit assembly; values kept as bit patterns. -/
def Converter.convertToFloat64Array (c : Converter) : List Nat → List Nat
  | a :: b :: d :: e :: rest => assemble64 c.wordOrder a b d e :: c.convertToFloat64Array rest
  | _ => []

/-- convertToBoolArray: bit i (LSB first) of each register, 16 bits per register. -/
def Converter.convertToBoolArray (_c : Converter) (registers : List Nat) : List Bool :=
  registers.foldr (fun reg acc =>
    ((List.range 16).map (fun i => reg &&& (1 <<< i) != 0)) ++ acc) []

/-- strings.TrimRight(s, "\x00"): drop the trailing NUL bytes. -/
def trimRightNul (l : List Nat) : List Nat :=
  ((l.reverse.dropWhile (fun b => b = 0)).reverse)

/-- convertToASCII: bytes per ByteOrder across all registers, then trailing
NUL bytes trimmed. -/
def Converter.convertToASCII (c : Converter) (registers : List Nat) : GoStr :=
  trimRightNul (registers.foldr (fun reg acc =>
    (if c.byteOrder = .AB then [(reg >>> 8) % 256, reg &&& 0xFF]
     else [reg &&& 0xFF, (reg >>> 8) % 256]) ++ acc) [])

/-- convertToTimestamp: first two registers per WordOrder as epoch seconds,
else the invalid-timestamp placeholder. -/
def Converter.convertToTimestamp (c : Converter) (registers : List Nat) : Value :=
  match registers with
  | a :: b :: _ => .timestamp (some (assemble32 c.wordOrder a b))
  | _ => .timestamp none

/-- ConvertFromRegisters: dispatch on DataType; empty input is an error. -/
def Converter.ConvertFromRegisters (c : Converter) (registers : List Nat)
    (dataType : DataType) : Except GoError Value :=
  if registers = [] then .error .emptyRegisters
  else
    match dataType with
    | .BYTE => .ok (.bytes (c.convertToBytes registers))
    | .INT16 => .ok (.i16s (c.convertToInt16Array registers))
    | .UINT16 => .ok (.u16s (c.convertToUint16Array registers))
    | .INT32 => .ok (.i32s (c.convertToInt32Array registers))
    | .UINT32 => .ok (.u32s (c.convertToUint32Array registers))
    | .INT64 => .ok (.i64s (c.convertToInt64Array registers))
    | .UINT64 => .ok (.u64s (c.convertToUint64Array registers))
    | .FLOAT32 => .ok (.f32s (c.convertToFloat32Array registers))
    | .FLOAT64 => .ok (.f64s (c.convertToFloat64Array registers))
    | .BOOL => .ok (.bools (c.convertToBoolArray registers))
    | .ASCII => .ok (.str (c.convertToASCII registers))
    | .UNIX_TIMESTAMP => .ok (c.convertToTimestamp registers)

/-- int32ToRegisters. -/
def Converter.int32ToRegisters (c : Converter) (value : Int) : List Nat :=
  let bits := uint32Of value
  if c.wordOrder = .WORD_1234 then [(bits >>> 16) % 65536, bits &&& 0xFFFF]
  else [bits &&& 0xFFFF, (bits >>> 16) % 65536]

/-- uint32ToRegisters. -/
def Converter.uint32ToRegisters (c : Converter) (value : Nat) : List Nat :=
  if c.wordOrder = .WORD_1234 then [(value >>> 16) % 65536, value &&& 0xFFFF]
  else [value &&& 0xFFFF, (value >>> 16) % 65536]

/-- int64ToRegisters. -/
def Converter.int64ToRegisters (c : Converter) (value : Int) : List Nat :=
  let bits := uint64Of value
  if c.wordOrder = .WORD_1234 then
    [(bits >>> 48) % 65536, (bits >>> 32) % 65536, (bits >>> 16) % 65536, bits &&& 0xFFFF]
  else
    [bits &&& 0xFFFF, (bits >>> 16) % 65536, (bits >>> 32) % 65536, (bits >>> 48) % 65536]

/-- uint64ToRegisters. -/
def Converter.uint64ToRegisters (c : Converter) (value : Nat) : List Nat :=
  if c.wordOrder = .WORD_1234 then
    [(value >>> 48) % 65536, (value >>> 32) % 65536, (value >>> 16) % 65536, value &&& 0xFFFF]
  else
    [value &&& 0xFFFF, (value >>> 16) % 65536, (value >>> 32) % 65536, (value >>> 48) % 65536]

/-- float32ToRegisters (on the IEEE bit pattern, `math.Float32bits` being a
bit reinterpretation). -/
def Converter.float32ToRegisters (c : Converter) (bits : Nat) : List Nat :=
  if c.wordOrder = .WORD_1234 then [(bits >>> 16) % 65536, bits &&& 0xFFFF]
  else [bits &&& 0xFFFF, (bits >>> 16) % 65536]

/-- float64ToRegisters. -/
def Converter.float64ToRegisters (c : Converter) (bits : Nat) : List Nat :=
  if c.wordOrder = .WORD_1234 then
    [(bits >>> 48) % 65536, (bits >>> 32) % 65536, (bits >>> 16) % 65536, bits &&& 0xFFFF]
  else
    [bits &&& 0xFFFF, (bits >>> 16) % 65536, (bits >>> 32) % 65536, (bits >>> 48) % 65536]

/-- asciiToRegisters: pad with one NUL byte if the byte length is odd, then
pair bytes per ByteOrder. -/
def pairBytes (bo : ByteOrder) : List Nat → List Nat
  | b0 :: b1 :: rest =>
    (if bo = .AB then b0 <<< 8 ||| b1 else b1 <<< 8 ||| b0) :: pairBytes bo rest
  | _ => []

/-- asciiToRegisters from pkg/datatypes (the Go string's UTF-8 bytes are the
`GoStr` byte list itself). -/
def Converter.asciiToRegisters (c : Converter) (value : GoStr) : List Nat :=
  let bytes := if value.length % 2 ≠ 0 then value ++ [0] else value
  pairBytes c.byteOrder bytes

/-- Concatenating append loop (`registers = append(registers, f(val)...)`). -/
def appendAll {α : Type} (f : α → List Nat) : List α → List Nat
  | [] => []
  | x :: xs => f x ++ appendAll f xs

/-- ConvertToRegisters: type switch on the dynamic value; []byte, []bool and
the timestamp string shape are not handled and fail (for the timestamp the
Go value is a string whose bytes depend on the local time zone; the model
classifies it with the unsupported shapes, which no claim exercises). -/
def Converter.ConvertToRegisters (c : Converter) (value : Value) :
    Except GoError (List Nat) :=
  match value with
  | .i16s v => .ok (v.map uint16Of)
  | .u16s v => .ok v
  | .i32s v => .ok (appendAll c.int32ToRegisters v)
  | .u32s v => .ok (appendAll c.uint32ToRegisters v)
  | .i64s v => .ok (appendAll c.int64ToRegisters v)
  | .u64s v => .ok (appendAll c.uint64ToRegisters v)
  | .f32s v => .ok (appendAll c.float32ToRegisters v)
  | .f64s v => .ok (appendAll c.float64ToRegisters v)
  | .str v => .ok (c.asciiToRegisters v)
  | .bytes _ => .error .unsupportedToRegisters
  | .bools _ => .error .unsupportedToRegisters
  | .timestamp _ => .error .unsupportedToRegisters

/-- Round trip of a register array through decode then encode. -/
def roundTrip (c : Converter) (r : List Nat) (dt : DataType) :
    Except GoError (List Nat) :=
  match c.ConvertFromRegisters r dt with
  | .error e => .error e
  | .ok v => c.ConvertToRegisters v

/-! ## Modbus client (internal/modbus/client.go) -/

/-- ConnectionType. -/
inductive ConnectionType where
  | TCP
  | RTU
deriving DecidableEq, Repr

/-- Client struct.  `handlerOpen` models `handler ≠ nil`, `clientOpen`
models `client ≠ nil`; the last packets are `nil`-able byte slices. -/
structure Client where
  connectionType : ConnectionType
  isConnected : Bool
  handlerOpen : Bool
  clientOpen : Bool
  converter : Converter
  lastSentPacket : Option (List Nat)
  lastReceivedPacket : Option (List Nat)
  transactionID : Nat
deriving DecidableEq, Repr

/-- NewClient: Go zero values plus the AB/1234 converter. -/
def NewClient : Client :=
  { connectionType := .TCP
    isConnected := false
    handlerOpen := false
    clientOpen := false
    converter := NewConverter .AB .WORD_1234
    lastSentPacket := none
    lastReceivedPacket := none
    transactionID := 0 }

/-- ConnectTCP: on handler.Connect success the client is wired up and
marked connected; on failure the receiver is unchanged.  The success of the
external dial is an oracle argument. -/
def Client.ConnectTCP (c : Client) (connectOk : Bool) : Client × Except GoError Unit :=
  if connectOk then
    ({ c with connectionType := .TCP, isConnected := true,
              handlerOpen := true, clientOpen := true }, .ok ())
  else (c, .error .transport)

/-- ConnectRTU: same shape over a serial handler. -/
def Client.ConnectRTU (c : Client) (connectOk : Bool) : Client × Except GoError Unit :=
  if connectOk then
    ({ c with connectionType := .RTU, isConnected := true,
              handlerOpen := true, clientOpen := true }, .ok ())
  else (c, .error .transport)

/-- Disconnect: nil handler is a no-op; otherwise closes and nils handler
and client.  `isConnected` is not touched by the source.  The close call's
error is an oracle argument. -/
def Client.Disconnect (c : Client) (closeErr : Bool) : Client × Except GoError Unit :=
  if c.handlerOpen = false then (c, .ok ())
  else
    let c' := { c with handlerOpen := false, clientOpen := false }
    if closeErr then (c', .error .transport) else (c', .ok ())

/-- SetDataConverter. -/
def Client.SetDataConverter (c : Client) (bo : ByteOrder) (wo : WordOrder) : Client :=
  { c with converter := NewConverter bo wo }

/-- IsConnected. -/
def Client.IsConnected (c : Client) : Bool := c.isConnected

/-- GetLastPackets. -/
def Client.GetLastPackets (c : Client) : Option (List Nat) × Option (List Nat) :=
  (c.lastSentPacket, c.lastReceivedPacket)

/-- One bit step of the CRC16 loop (poly 0xA001). -/
def crcBitStep (crc : Nat) : Nat :=
  if crc &&& 0x0001 != 0 then (crc >>> 1) ^^^ 0xA001 else crc >>> 1

/-- One byte of the CRC16 loop: xor in the byte, then eight bit steps. -/
def crcByte (crc b : Nat) : Nat := crcBitStep^[8] (crc ^^^ b)

/-- calculateCRC: CRC16 with init 0xFFFF, poly 0xA001, LSB first, with the
final byte swap the source applies before returning (`(crc>>8)|(crc<<8)` on
uint16). -/
def calculateCRC (data : List Nat) : Nat :=
  let crc := data.foldl crcByte 0xFFFF
  (crc >>> 8) ||| ((crc <<< 8) % 65536)

/-- Modelled from the spec: the standard Modbus RTU reference CRC16 — the
same init-0xFFFF/poly-0xA001/LSB-first bit loop without any final swap; on
the wire its low byte is transmitted first.  (The repository has no second
CRC implementation; this is the published reference the spec compares
against.) -/
def referenceCRC16 (data : List Nat) : Nat := data.foldl crcByte 0xFFFF

/-- Modelled from the spec: the reference CRC16 as appended to an RTU
frame, low byte first. -/
def referenceCRCBytes (data : List Nat) : List Nat :=
  [referenceCRC16 data % 256, (referenceCRC16 data / 256) % 256]

/-- binary.BigEndian.PutUint16 of a (masked) 16-bit value. -/
def u16be (n : Nat) : List Nat := [(n / 256) % 256, n % 256]

/-- Response PDU reconstruction in recordADU: read responses get the
function code and a byte count prefixed; write responses get the function
code prefixed; unknown codes pass the payload through. -/
def fullResponsePDU (requestFuncCode : Nat) (responsePDU : List Nat) : List Nat :=
  if requestFuncCode = 0x01 ∨ requestFuncCode = 0x02 ∨
     requestFuncCode = 0x03 ∨ requestFuncCode = 0x04 then
    requestFuncCode :: (responsePDU.length % 256) :: responsePDU
  else if requestFuncCode = 0x05 ∨ requestFuncCode = 0x06 ∨
          requestFuncCode = 0x0F ∨ requestFuncCode = 0x10 then
    requestFuncCode :: responsePDU
  else responsePDU

/-- MBAP-framed request ADU recorded for TCP (`tid` is the transaction ID
used for this record). -/
def tcpADU (tid : Nat) (slaveID : Nat) (pdu : List Nat) : List Nat :=
  u16be tid ++ u16be 0 ++ u16be (pdu.length + 1) ++ [slaveID % 256] ++ pdu

/-- RTU ADU recorded: unit ID, PDU, then the two bytes the source appends
from calculateCRC's return value (`byte(crc&0xFF)`, `byte(crc>>8)`). -/
def rtuADU (slaveID : Nat) (pdu : List Nat) : List Nat :=
  let adu := (slaveID % 256) :: pdu
  let crc := calculateCRC adu
  adu ++ [crc &&& 0xFF, (crc >>> 8) % 256]

/-- Request ADU that recordADU will store for client `c` (for TCP it uses
the incremented transaction ID). -/
def sentADUFor (c : Client) (pdu : List Nat) (slaveID : Nat) : List Nat :=
  match c.connectionType with
  | .TCP => tcpADU ((c.transactionID + 1) % 65536) slaveID pdu
  | .RTU => rtuADU slaveID pdu

/-- Response ADU that recordADU will store for client `c` on success. -/
def recvADUFor (c : Client) (requestPDU : List Nat) (responsePDU : List Nat)
    (slaveID : Nat) : List Nat :=
  let fullPDU := fullResponsePDU (requestPDU.headD 0) responsePDU
  match c.connectionType with
  | .TCP => tcpADU ((c.transactionID + 1) % 65536) slaveID fullPDU
  | .RTU => rtuADU slaveID fullPDU

/-- recordADU: reconstructs and stores the request ADU and (on success) the
response ADU; on TCP the transaction ID is incremented (uint16 wrap) and
shared between the request and response headers; a nil response clears the
stored received packet. -/
def Client.recordADU (c : Client) (requestPDU : List Nat)
    (responsePDU : Option (List Nat)) (slaveID : Nat) : Client :=
  let c' := { c with
    lastSentPacket := some (sentADUFor c requestPDU slaveID)
    lastReceivedPacket := responsePDU.map (fun r => recvADUFor c requestPDU r slaveID) }
  match c.connectionType with
  | .TCP => { c' with transactionID := (c.transactionID + 1) % 65536 }
  | .RTU => c'

/-- bytesToUint16Array: big-endian byte pairs, trailing odd byte dropped. -/
def bytesToUint16Array : List Nat → List Nat
  | b0 :: b1 :: rest => (b0 <<< 8 ||| b1) :: bytesToUint16Array rest
  | _ => []

/-- uint16ArrayToBytes: big-endian bytes of each register. -/
def uint16ArrayToBytes (data : List Nat) : List Nat :=
  appendAll (fun v => [(v >>> 8) % 256, v % 256]) data

/-- Request PDU of the four read operations: function code, address,
count, all big-endian. -/
def readPDU (fc address count : Nat) : List Nat :=
  fc :: (u16be address ++ u16be count)

/-- ReadHoldingRegisters.  The transport outcome of the underlying
goburrow call (payload bytes or an error) is an oracle argument. -/
def Client.ReadHoldingRegisters (c : Client) (slaveID address count : Nat)
    (dataType : DataType) (tr : Except Unit (List Nat)) :
    Client × Except GoError Value :=
  if c.isConnected = false then (c, .error .notConnected)
  else
    let requestPDU := readPDU 0x03 address count
    match tr with
    | .error _ => (c.recordADU requestPDU none slaveID, .error .transport)
    | .ok results =>
      let c' := c.recordADU requestPDU (some results) slaveID
      (c', c.converter.ConvertFromRegisters (bytesToUint16Array results) dataType)

/-- ReadInputRegisters. -/
def Client.ReadInputRegisters (c : Client) (slaveID address count : Nat)
    (dataType : DataType) (tr : Except Unit (List Nat)) :
    Client × Except GoError Value :=
  if c.isConnected = false then (c, .error .notConnected)
  else
    let requestPDU := readPDU 0x04 address count
    match tr with
    | .error _ => (c.recordADU requestPDU none slaveID, .error .transport)
    | .ok results =>
      let c' := c.recordADU requestPDU (some results) slaveID
      (c', c.converter.ConvertFromRegisters (bytesToUint16Array results) dataType)

/-- Bool extraction loop of ReadCoils / ReadDiscreteInputs: for each
`i < count`, bit `i % 8` of response byte `i / 8`, appended only when that
byte exists. -/
def coilBools (count : Nat) (results : List Nat) : List Bool :=
  (List.range count).filterMap (fun i =>
    if i / 8 < results.length then
      some (results.getD (i / 8) 0 &&& (1 <<< (i % 8)) != 0)
    else none)

/-- ReadCoils. -/
def Client.ReadCoils (c : Client) (slaveID address count : Nat)
    (tr : Except Unit (List Nat)) : Client × Except GoError (List Bool) :=
  if c.isConnected = false then (c, .error .notConnected)
  else
    let requestPDU := readPDU 0x01 address count
    match tr with
    | .error _ => (c.recordADU requestPDU none slaveID, .error .transport)
    | .ok results =>
      (c.recordADU requestPDU (some results) slaveID, .ok (coilBools count results))

/-- ReadDiscreteInputs. -/
def Client.ReadDiscreteInputs (c : Client) (slaveID address count : Nat)
    (tr : Except Unit (List Nat)) : Client × Except GoError (List Bool) :=
  if c.isConnected = false then (c, .error .notConnected)
  else
    let requestPDU := readPDU 0x02 address count
    match tr with
    | .error _ => (c.recordADU requestPDU none slaveID, .error .transport)
    | .ok results =>
      (c.recordADU requestPDU (some results) slaveID, .ok (coilBools count results))

/-- Request PDU WriteHoldingRegisters builds from the converted registers:
function code 0x06 with the value bytes when the (uint16-narrowed) quantity
is one, else 0x10 with quantity, byte count and data. -/
def holdingWritePDU (address : Nat) (registers : List Nat) : List Nat :=
  let data := uint16ArrayToBytes registers
  let quantity := registers.length % 65536
  if quantity = 1 then 0x06 :: (u16be address ++ data.take 2)
  else 0x10 :: (u16be address ++ u16be quantity ++ [data.length % 256] ++ data)

/-- WriteHoldingRegisters: converts the values first (returning the
conversion error without recording anything), then selects 0x06/0x10 by
quantity and records the exchange. -/
def Client.WriteHoldingRegisters (c : Client) (slaveID address : Nat)
    (values : Value) (tr : Except Unit (List Nat)) :
    Client × Except GoError Unit :=
  if c.isConnected = false then (c, .error .notConnected)
  else
    match c.converter.ConvertToRegisters values with
    | .error _ => (c, .error .conversionFailed)
    | .ok registers =>
      let requestPDU := holdingWritePDU address registers
      match tr with
      | .error _ => (c.recordADU requestPDU none slaveID, .error .transport)
      | .ok results => (c.recordADU requestPDU (some results) slaveID, .ok ())

/-- Coil data packing of WriteCoils (`data[i/8] |= 1 << (i%8)` over a
zeroed byte array of length `(len+7)/8`). -/
def packCoilBytes (values : List Bool) : List Nat :=
  (values.enum).foldl
    (fun data iv =>
      if iv.2 then data.set (iv.1 / 8) (data.getD (iv.1 / 8) 0 ||| (1 <<< (iv.1 % 8)))
      else data)
    (List.replicate ((values.length + 7) / 8) 0)

/-- Request PDU WriteCoils builds: 0x05 with 0xFF00/0x0000 when the
quantity is one, else 0x0F with packed bytes. -/
def coilWritePDU (address : Nat) (values : List Bool) : List Nat :=
  let quantity := values.length % 65536
  if quantity = 1 then
    0x05 :: (u16be address ++ u16be (if values.headD false then 0xFF00 else 0x0000))
  else
    let data := packCoilBytes values
    0x0F :: (u16be address ++ u16be quantity ++ [data.length % 256] ++ data)

/-- WriteCoils. -/
def Client.WriteCoils (c : Client) (slaveID address : Nat)
    (values : List Bool) (tr : Except Unit (List Nat)) :
    Client × Except GoError Unit :=
  if c.isConnected = false then (c, .error .notConnected)
  else
    let requestPDU := coilWritePDU address values
    match tr with
    | .error _ => (c.recordADU requestPDU none slaveID, .error .transport)
    | .ok results => (c.recordADU requestPDU (some results) slaveID, .ok ())

/-! ## Polling scheduler (internal/gui/app_refined.go) -/

/-- State of the GUI polling scheduler.  Stop channels are identified by
numbers; `pollingStop` is the channel currently stored in the field,
`loops` the channels on which a spawned polling goroutine is still
selecting, `signalled` the channels a stop signal has been sent on,
`reads` the number of ticks that have invoked the read operation. -/
structure PollSt where
  pollingStop : Option Nat
  loops : List Nat
  signalled : List Nat
  reads : Nat
  startEnabled : Bool
  stopEnabled : Bool
  nextChan : Nat
deriving DecidableEq, Repr

/-- Initial GUI state: no channel, no loop, start button enabled. -/
def pollInit : PollSt :=
  { pollingStop := none, loops := [], signalled := [], reads := 0,
    startEnabled := true, stopEnabled := false, nextChan := 0 }

/-- stopPolling: when `pollingStop == nil` it toggles the two buttons;
otherwise it does nothing at all — in particular it never sends on or
closes the stop channel and never waits for the loop. -/
def stopPolling (s : PollSt) : PollSt :=
  if s.pollingStop = none then { s with startEnabled := true, stopEnabled := false }
  else s

/-- startPolling: guarded by the GUI connected flag and a valid interval;
calls stopPolling when a channel exists, then installs a fresh channel and
spawns a loop goroutine selecting on it. -/
def startPolling (s : PollSt) (connected intervalValid : Bool) : PollSt :=
  if connected = false then s
  else if intervalValid = false then s
  else
    let s := if s.pollingStop ≠ none then stopPolling s else s
    { s with pollingStop := some s.nextChan,
             loops := s.nextChan :: s.loops,
             nextChan := s.nextChan + 1,
             startEnabled := false, stopEnabled := true }

/-- One iteration of a polling goroutine's select loop on channel `ch`: if
a stop signal is pending the loop returns; otherwise the ticker fires and
the read operation runs. -/
def pollTick (s : PollSt) (ch : Nat) : PollSt :=
  if ch ∈ s.loops then
    if ch ∈ s.signalled then { s with loops := s.loops.erase ch }
    else { s with reads := s.reads + 1 }
  else s

/-! ## Arithmetic bridge lemmas -/

theorem shl16_or_eq (a b : Nat) (hb : b < 65536) : a <<< 16 ||| b = 65536 * a + b := by
  have hb' : b < 2 ^ 16 := by norm_num [hb]
  rw [Nat.shiftLeft_eq, Nat.mul_comm, ← Nat.mul_add_lt_is_or hb' a]

theorem and_FFFF (x : Nat) : x &&& 65535 = x % 65536 := by
  have h := Nat.and_pow_two_sub_one_eq_mod x 16
  norm_num at h
  exact h

theorem shr_eq_div (x n : Nat) : x >>> n = x / 2 ^ n := Nat.shiftRight_eq_div_pow x n

theorem assemble32_eq (wo : WordOrder) (a b : Nat) (ha : a < 65536) (hb : b < 65536) :
    assemble32 wo a b = if wo = .WORD_1234 then 65536 * a + b else 65536 * b + a := by
  cases wo <;> simp [assemble32, shl16_or_eq _ _ hb, shl16_or_eq _ _ ha]

theorem assemble32_lt (wo : WordOrder) (a b : Nat) (ha : a < 65536) (hb : b < 65536) :
    assemble32 wo a b < 4294967296 := by
  rw [assemble32_eq wo a b ha hb]
  cases wo <;> simp <;> omega

theorem or_eq_add (n z y : Nat) (hy : y < 2 ^ n) : 2 ^ n * z ||| y = 2 ^ n * z + y :=
  (Nat.mul_add_lt_is_or hy z).symm

theorem assemble64_1234_eq (a b c d : Nat) (hb : b < 65536) (hc : c < 65536)
    (hd : d < 65536) :
    a <<< 48 ||| b <<< 32 ||| c <<< 16 ||| d
      = 281474976710656 * a + 4294967296 * b + 65536 * c + d := by
  rw [Nat.shiftLeft_eq, Nat.shiftLeft_eq, Nat.shiftLeft_eq]
  rw [show a * 2 ^ 48 = 2 ^ 48 * a by ring,
      or_eq_add 48 a (b * 2 ^ 32) (by norm_num; omega)]
  rw [show 2 ^ 48 * a + b * 2 ^ 32 = 2 ^ 32 * (2 ^ 16 * a + b) by ring,
      or_eq_add 32 (2 ^ 16 * a + b) (c * 2 ^ 16) (by norm_num; omega)]
  rw [show 2 ^ 32 * (2 ^ 16 * a + b) + c * 2 ^ 16
        = 2 ^ 16 * (2 ^ 32 * a + 2 ^ 16 * b + c) by ring,
      or_eq_add 16 (2 ^ 32 * a + 2 ^ 16 * b + c) d (by norm_num; omega)]
  norm_num
  ring

theorem assemble64_eq (wo : WordOrder) (a b c d : Nat) (ha : a < 65536)
    (hb : b < 65536) (hc : c < 65536) (hd : d < 65536) :
    assemble64 wo a b c d
      = if wo = .WORD_1234 then
          281474976710656 * a + 4294967296 * b + 65536 * c + d
        else
          281474976710656 * d + 4294967296 * c + 65536 * b + a := by
  cases wo <;>
    simp [assemble64, assemble64_1234_eq a b c d hb hc hd,
          assemble64_1234_eq d c b a hc hb ha]

theorem assemble64_lt (wo : WordOrder) (a b c d : Nat) (ha : a < 65536)
    (hb : b < 65536) (hc : c < 65536) (hd : d < 65536) :
    assemble64 wo a b c d < 18446744073709551616 := by
  rw [assemble64_eq wo a b c d ha hb hc hd]
  cases wo <;> simp <;> omega

/-! ## Signed/unsigned reinterpretation round trips -/

theorem uint16Of_int16Of (v : Nat) (h : v < 65536) : uint16Of (int16Of v) = v := by
  unfold uint16Of int16Of
  split <;> omega

theorem uint32Of_int32Of (v : Nat) (h : v < 4294967296) : uint32Of (int32Of v) = v := by
  unfold uint32Of int32Of
  split <;> omega

theorem uint64Of_int64Of (v : Nat) (h : v < 18446744073709551616) :
    uint64Of (int64Of v) = v := by
  unfold uint64Of int64Of
  split <;> omega

/-! ## Per-value encode-after-decode lemmas -/

theorem u32_enc_dec (c : Converter) (a b : Nat) (ha : a < 65536) (hb : b < 65536) :
    c.uint32ToRegisters (assemble32 c.wordOrder a b) = [a, b] := by
  cases hwo : c.wordOrder <;>
    rw [Converter.uint32ToRegisters, assemble32_eq _ a b ha hb, hwo]
  · have h1 : (65536 * a + b) >>> 16 % 65536 = a := by
      rw [shr_eq_div]; norm_num; omega
    have h2 : (65536 * a + b) &&& 0xFFFF = b := by
      rw [show (0xFFFF : Nat) = 65535 from rfl, and_FFFF]; omega
    simp [h1, h2]
  · have h1 : (65536 * b + a) >>> 16 % 65536 = b := by
      rw [shr_eq_div]; norm_num; omega
    have h2 : (65536 * b + a) &&& 0xFFFF = a := by
      rw [show (0xFFFF : Nat) = 65535 from rfl, and_FFFF]; omega
    simp [h1, h2]

theorem int32ToRegisters_eq (c : Converter) (v : Int) :
    c.int32ToRegisters v = c.uint32ToRegisters (uint32Of v) := rfl

theorem i32_enc_dec (c : Converter) (a b : Nat) (ha : a < 65536) (hb : b < 65536) :
    c.int32ToRegisters (int32Of (assemble32 c.wordOrder a b)) = [a, b] := by
  rw [int32ToRegisters_eq,
      uint32Of_int32Of _ (assemble32_lt c.wordOrder a b ha hb),
      u32_enc_dec c a b ha hb]

theorem f32_enc_eq (c : Converter) : c.float32ToRegisters = c.uint32ToRegisters := rfl

theorem u64_enc_dec (c : Converter) (a b d e : Nat) (ha : a < 65536) (hb : b < 65536)
    (hd : d < 65536) (he : e < 65536) :
    c.uint64ToRegisters (assemble64 c.wordOrder a b d e) = [a, b, d, e] := by
  cases hwo : c.wordOrder <;>
    rw [Converter.uint64ToRegisters, assemble64_eq _ a b d e ha hb hd he, hwo]
  · have h1 : (281474976710656 * a + 4294967296 * b + 65536 * d + e) >>> 48 % 65536 = a := by
      rw [shr_eq_div]; norm_num; omega
    have h2 : (281474976710656 * a + 4294967296 * b + 65536 * d + e) >>> 32 % 65536 = b := by
      rw [shr_eq_div]; norm_num; omega
    have h3 : (281474976710656 * a + 4294967296 * b + 65536 * d + e) >>> 16 % 65536 = d := by
      rw [shr_eq_div]; norm_num; omega
    have h4 : (281474976710656 * a + 4294967296 * b + 65536 * d + e) &&& 0xFFFF = e := by
      rw [show (0xFFFF : Nat) = 65535 from rfl, and_FFFF]; omega
    simp [h1, h2, h3, h4]
  · have h1 : (281474976710656 * e + 4294967296 * d + 65536 * b + a) >>> 48 % 65536 = e := by
      rw [shr_eq_div]; norm_num; omega
    have h2 : (281474976710656 * e + 4294967296 * d + 65536 * b + a) >>> 32 % 65536 = d := by
      rw [shr_eq_div]; norm_num; omega
    have h3 : (281474976710656 * e + 4294967296 * d + 65536 * b + a) >>> 16 % 65536 = b := by
      rw [shr_eq_div]; norm_num; omega
    have h4 : (281474976710656 * e + 4294967296 * d + 65536 * b + a) &&& 0xFFFF = a := by
      rw [show (0xFFFF : Nat) = 65535 from rfl, and_FFFF]; omega
    simp [h1, h2, h3, h4]

theorem int64ToRegisters_eq (c : Converter) (v : Int) :
    c.int64ToRegisters v = c.uint64ToRegisters (uint64Of v) := rfl

theorem i64_enc_dec (c : Converter) (a b d e : Nat) (ha : a < 65536) (hb : b < 65536)
    (hd : d < 65536) (he : e < 65536) :
    c.int64ToRegisters (int64Of (assemble64 c.wordOrder a b d e)) = [a, b, d, e] := by
  rw [int64ToRegisters_eq,
      uint64Of_int64Of _ (assemble64_lt c.wordOrder a b d e ha hb hd he),
      u64_enc_dec c a b d e ha hb hd he]

theorem f64_enc_eq (c : Converter) : c.float64ToRegisters = c.uint64ToRegisters := rfl

/-! ## List-level round trips -/

theorem i16_list_roundtrip (r : List Nat) (hx : ∀ x ∈ r, x < 65536) :
    (r.map int16Of).map uint16Of = r := by
  induction r with
  | nil => rfl
  | cons a t ih =>
    simp only [List.map_cons, List.cons.injEq]
    exact ⟨uint16Of_int16Of a (hx a (by simp)), ih (fun x h => hx x (by simp [h]))⟩

theorem u32_list_roundtrip (c : Converter) :
    ∀ r : List Nat, (∀ x ∈ r, x < 65536) → 2 ∣ r.length →
      appendAll c.uint32ToRegisters (c.convertToUint32Array r) = r
  | [], _, _ => rfl
  | [_], _, hd => by simp only [List.length_cons, List.length_nil] at hd; omega
  | a :: b :: rest, hx, hd => by
    have hrest : 2 ∣ rest.length := by
      simp only [List.length_cons] at hd; omega
    simp only [Converter.convertToUint32Array, appendAll]
    rw [u32_enc_dec c a b (hx a (by simp)) (hx b (by simp)),
        u32_list_roundtrip c rest (fun x h => hx x (by simp [h])) hrest]
    rfl

theorem i32_list_roundtrip (c : Converter) :
    ∀ r : List Nat, (∀ x ∈ r, x < 65536) → 2 ∣ r.length →
      appendAll c.int32ToRegisters (c.convertToInt32Array r) = r
  | [], _, _ => rfl
  | [_], _, hd => by simp only [List.length_cons, List.length_nil] at hd; omega
  | a :: b :: rest, hx, hd => by
    have hrest : 2 ∣ rest.length := by
      simp only [List.length_cons] at hd; omega
    simp only [Converter.convertToInt32Array, appendAll]
    rw [i32_enc_dec c a b (hx a (by simp)) (hx b (by simp)),
        i32_list_roundtrip c rest (fun x h => hx x (by simp [h])) hrest]
    rfl

theorem f32_list_roundtrip (c : Converter) :
    ∀ r : List Nat, (∀ x ∈ r, x < 65536) → 2 ∣ r.length →
      appendAll c.float32ToRegisters (c.convertToFloat32Array r) = r
  | [], _, _ => rfl
  | [_], _, hd => by simp only [List.length_cons, List.length_nil] at hd; omega
  | a :: b :: rest, hx, hd => by
    have hrest : 2 ∣ rest.length := by
      simp only [List.length_cons] at hd; omega
    simp only [Converter.convertToFloat32Array, appendAll]
    rw [f32_list_roundtrip c rest (fun x h => hx x (by simp [h])) hrest,
        f32_enc_eq, u32_enc_dec c a b (hx a (by simp)) (hx b (by simp))]
    rfl

theorem u64_list_roundtrip (c : Converter) :
    ∀ r : List Nat, (∀ x ∈ r, x < 65536) → 4 ∣ r.length →
      appendAll c.uint64ToRegisters (c.convertToUint64Array r) = r
  | [], _, _ => rfl
  | [_], _, hd => by simp only [List.length_cons, List.length_nil] at hd; omega
  | [_, _], _, hd => by simp only [List.length_cons, List.length_nil] at hd; omega
  | [_, _, _], _, hd => by simp only [List.length_cons, List.length_nil] at hd; omega
  | a :: b :: d :: e :: rest, hx, hd => by
    have hrest : 4 ∣ rest.length := by
      simp only [List.length_cons] at hd; omega
    simp only [Converter.convertToUint64Array, appendAll]
    rw [u64_enc_dec c a b d e (hx a (by simp)) (hx b (by simp)) (hx d (by simp))
          (hx e (by simp)),
        u64_list_roundtrip c rest (fun x h => hx x (by simp [h])) hrest]
    rfl

theorem i64_list_roundtrip (c : Converter) :
    ∀ r : List Nat, (∀ x ∈ r, x < 65536) → 4 ∣ r.length →
      appendAll c.int64ToRegisters (c.convertToInt64Array r) = r
  | [], _, _ => rfl
  | [_], _, hd => by simp only [List.length_cons, List.length_nil] at hd; omega
  | [_, _], _, hd => by simp only [List.length_cons, List.length_nil] at hd; omega
  | [_, _, _], _, hd => by simp only [List.length_cons, List.length_nil] at hd; omega
  | a :: b :: d :: e :: rest, hx, hd => by
    have hrest : 4 ∣ rest.length := by
      simp only [List.length_cons] at hd; omega
    simp only [Converter.convertToInt64Array, appendAll]
    rw [i64_enc_dec c a b d e (hx a (by simp)) (hx b (by simp)) (hx d (by simp))
          (hx e (by simp)),
        i64_list_roundtrip c rest (fun x h => hx x (by simp [h])) hrest]
    rfl

theorem f64_list_roundtrip (c : Converter) :
    ∀ r : List Nat, (∀ x ∈ r, x < 65536) → 4 ∣ r.length →
      appendAll c.float64ToRegisters (c.convertToFloat64Array r) = r
  | [], _, _ => rfl
  | [_], _, hd => by simp only [List.length_cons, List.length_nil] at hd; omega
  | [_, _], _, hd => by simp only [List.length_cons, List.length_nil] at hd; omega
  | [_, _, _], _, hd => by simp only [List.length_cons, List.length_nil] at hd; omega
  | a :: b :: d :: e :: rest, hx, hd => by
    have hrest : 4 ∣ rest.length := by
      simp only [List.length_cons] at hd; omega
    simp only [Converter.convertToFloat64Array, appendAll]
    rw [f64_list_roundtrip c rest (fun x h => hx x (by simp [h])) hrest,
        f64_enc_eq, u64_enc_dec c a b d e (hx a (by simp)) (hx b (by simp))
          (hx d (by simp)) (hx e (by simp))]
    rfl

/-! ## Claim theorems -/

deriving instance DecidableEq for Except

/-- A freshly connected TCP client (ConnectTCP succeeded). -/
def tcpClient : Client := (NewClient.ConnectTCP true).1

/-- A freshly connected RTU client (ConnectRTU succeeded). -/
def rtuClient : Client := (NewClient.ConnectRTU true).1

/-- C1: the claim states that after StopPolling returns the polling loop has
observed the cancellation signal and exited, so no further ticks invoke the
read.  The code violates this: `stopPolling` never sends on or closes the
stop channel (it only toggles buttons, and only when `pollingStop == nil`),
so after StartPolling and one — or two — StopPolling calls the loop is
still live, has no pending stop signal, and its next tick still invokes the
read operation. -/
theorem C1_stopPolling_never_stops_the_loop :
    (stopPolling (startPolling pollInit true true)).loops = [0] ∧
    (stopPolling (startPolling pollInit true true)).signalled = [] ∧
    (pollTick (stopPolling (startPolling pollInit true true)) 0).reads =
      (stopPolling (startPolling pollInit true true)).reads + 1 ∧
    (stopPolling (stopPolling (startPolling pollInit true true))).loops = [0] ∧
    (pollTick (stopPolling (stopPolling (startPolling pollInit true true))) 0).reads =
      (stopPolling (stopPolling (startPolling pollInit true true))).reads + 1 ∧
    stopPolling pollInit =
      { pollInit with startEnabled := true, stopEnabled := false } := by
  decide

/-- C2: the claim states that Disconnect transitions the client to the
Disconnected state and that a read issued afterwards fails with the
NotConnected error.  The code violates this: Disconnect nils the handler
and client but never clears `isConnected`, so after a successful
Disconnect the client still reports connected and ReadHoldingRegisters
proceeds past the connectivity guard instead of failing NotConnected (in
Go it would then dereference the nil client). -/
theorem C2_disconnect_leaves_isConnected_true :
    ((tcpClient.Disconnect false).1).isConnected = true ∧
    ((tcpClient.Disconnect false).1).handlerOpen = false ∧
    (((tcpClient.Disconnect false).1).Disconnect false).2 = Except.ok () ∧
    (((tcpClient.Disconnect false).1).ReadHoldingRegisters 1 0 1 .UINT16
        (.ok [0, 5])).2 ≠ Except.error GoError.notConnected := by
  decide

set_option maxRecDepth 10000 in
/-- C3: the claim states that the two CRC bytes recordADU appends to an RTU
ADU equal the standard Modbus reference CRC16 bytes on the vector
[0x01, 0x03, 0x00, 0x00, 0x00, 0x01].  The code violates this: the
reference appends [0x84, 0x0A] (low byte of 0x0A84 first), while
calculateCRC pre-swaps its uint16 result and recordADU then emits that
swapped value low byte first, so the recorded ADU ends [0x0A, 0x84] — the
two CRC bytes are reversed. -/
theorem C3_recorded_rtu_crc_bytes_are_swapped :
    referenceCRC16 [0x01, 0x03, 0x00, 0x00, 0x00, 0x01] = 0x0A84 ∧
    referenceCRCBytes [0x01, 0x03, 0x00, 0x00, 0x00, 0x01] = [0x84, 0x0A] ∧
    calculateCRC [0x01, 0x03, 0x00, 0x00, 0x00, 0x01] = 0x840A ∧
    (rtuClient.recordADU (readPDU 0x03 0 1) none 1).lastSentPacket =
      some [0x01, 0x03, 0x00, 0x00, 0x00, 0x01, 0x0A, 0x84] ∧
    [(0x0A : Nat), 0x84] ≠ [(0x84 : Nat), 0x0A] := by
  decide

/-- C4, counterexample: the round-trip claim quantifies over every
DataType, but for BYTE the decoded value is a Go `[]byte`, which
ConvertToRegisters does not accept, so already `r = [1]` fails. -/
theorem C4_roundTrip_fails_for_BYTE :
    roundTrip (NewConverter .AB .WORD_1234) [1] .BYTE ≠ .ok [1] := by
  decide

/-- C4, amended: for the numeric data types INT16, UINT16, INT32, UINT32,
INT64, UINT64, FLOAT32 and FLOAT64, any register array of valid uint16
words whose length is a positive multiple of RegistersPerValue round-trips
through ConvertFromRegisters then ConvertToRegisters; for BYTE, BOOL,
ASCII and UNIX_TIMESTAMP the decoded value shape is not accepted back (or,
for ASCII, trailing-NUL information is dropped), so the round trip fails
there. -/
theorem C4_roundTrip_numeric (c : Converter) (dt : DataType) (r : List Nat)
    (hdt : dt = .INT16 ∨ dt = .UINT16 ∨ dt = .INT32 ∨ dt = .UINT32 ∨
           dt = .INT64 ∨ dt = .UINT64 ∨ dt = .FLOAT32 ∨ dt = .FLOAT64)
    (hne : r ≠ []) (hdvd : dt.RegistersPerValue ∣ r.length)
    (hx : ∀ x ∈ r, x < 65536) :
    roundTrip c r dt = .ok r := by
  rcases hdt with h | h | h | h | h | h | h | h <;> subst h <;>
    simp only [DataType.RegistersPerValue] at hdvd <;>
    simp only [roundTrip, Converter.ConvertFromRegisters, if_neg hne,
               Converter.ConvertToRegisters, Converter.convertToInt16Array,
               Converter.convertToUint16Array]
  · rw [i16_list_roundtrip r hx]
  · rw [i32_list_roundtrip c r hx hdvd]
  · rw [u32_list_roundtrip c r hx hdvd]
  · rw [i64_list_roundtrip c r hx hdvd]
  · rw [u64_list_roundtrip c r hx hdvd]
  · rw [f32_list_roundtrip c r hx hdvd]
  · rw [f64_list_roundtrip c r hx hdvd]

/-- C4, witness: the amended round trip at a concrete input. -/
theorem C4_roundTrip_numeric_witness :
    ((DataType.UINT32 = .INT16 ∨ DataType.UINT32 = .UINT16 ∨
      DataType.UINT32 = .INT32 ∨ DataType.UINT32 = .UINT32 ∨
      DataType.UINT32 = .INT64 ∨ DataType.UINT32 = .UINT64 ∨
      DataType.UINT32 = .FLOAT32 ∨ DataType.UINT32 = .FLOAT64) ∧
     ([(1 : Nat), 2] ≠ []) ∧
     DataType.UINT32.RegistersPerValue ∣ ([(1 : Nat), 2]).length ∧
     (∀ x ∈ [(1 : Nat), 2], x < 65536)) ∧
    roundTrip (NewConverter .AB .WORD_1234) [1, 2] .UINT32 = .ok [1, 2] :=
  ⟨⟨by decide, by decide, by decide, by decide⟩,
   C4_roundTrip_numeric (NewConverter .AB .WORD_1234) .UINT32 [1, 2]
     (by decide) (by decide) (by decide) (by decide)⟩

/-! ## 32-bit grouping structure (C5) -/

theorem u32_arr_length (c : Converter) :
    ∀ r : List Nat, (c.convertToUint32Array r).length = r.length / 2
  | [] => rfl
  | [_] => by simp [Converter.convertToUint32Array]
  | _ :: _ :: rest => by
    simp only [Converter.convertToUint32Array, List.length_cons,
               u32_arr_length c rest]
    omega

theorem u32_arr_getD (c : Converter) :
    ∀ (r : List Nat) (i : Nat), 2 * i + 1 < r.length →
      (c.convertToUint32Array r).getD i 0 =
        assemble32 c.wordOrder (r.getD (2 * i) 0) (r.getD (2 * i + 1) 0)
  | a :: b :: rest, 0, _ => by
    simp [Converter.convertToUint32Array]
  | a :: b :: rest, i + 1, h => by
    have h' : 2 * i + 1 < rest.length := by
      simp only [List.length_cons] at h; omega
    have e1 : 2 * (i + 1) = 2 * i + 1 + 1 := by ring
    rw [e1]
    simp only [Converter.convertToUint32Array, List.getD_cons_succ]
    exact u32_arr_getD c rest i h'
  | [], _, h => by simp at h
  | [_], _, h => by
    simp only [List.length_cons, List.length_nil] at h
    omega

theorem i32_arr_eq_map (c : Converter) :
    ∀ r : List Nat, c.convertToInt32Array r = (c.convertToUint32Array r).map int32Of
  | [] => rfl
  | [_] => rfl
  | _ :: _ :: rest => by
    simp [Converter.convertToInt32Array, Converter.convertToUint32Array,
          i32_arr_eq_map c rest]

theorem f32_arr_eq (c : Converter) :
    ∀ r : List Nat, c.convertToFloat32Array r = c.convertToUint32Array r
  | [] => rfl
  | [_] => rfl
  | _ :: _ :: rest => by
    simp [Converter.convertToFloat32Array, Converter.convertToUint32Array,
          f32_arr_eq c rest]

/-- C5: convertToUint32Array pairs the registers (one 32-bit value per two
registers, trailing odd register dropped) and assembles each value as
reg[i]<<16|reg[i+1] under word order 1234 and reg[i+1]<<16|reg[i] under
4321; INT32 is the same grouping reinterpreted signed and FLOAT32 the same
bit patterns; and the concrete TCP scenario ReadHoldingRegisters(unit 1,
address 0, count 2, UINT32) over registers [0x0001, 0x0002] (response
bytes 00 01 00 02) returns the single value 65538. -/
theorem C5_uint32_grouping :
    (∀ (c : Converter) (r : List Nat),
        (c.convertToUint32Array r).length = r.length / 2) ∧
    (∀ (c : Converter) (r : List Nat) (i : Nat), 2 * i + 1 < r.length →
        (c.convertToUint32Array r).getD i 0 =
          (if c.wordOrder = .WORD_1234
           then r.getD (2 * i) 0 <<< 16 ||| r.getD (2 * i + 1) 0
           else r.getD (2 * i + 1) 0 <<< 16 ||| r.getD (2 * i) 0)) ∧
    (∀ (c : Converter) (r : List Nat),
        c.convertToInt32Array r = (c.convertToUint32Array r).map int32Of) ∧
    (∀ (c : Converter) (r : List Nat),
        c.convertToFloat32Array r = c.convertToUint32Array r) ∧
    (tcpClient.ReadHoldingRegisters 1 0 2 .UINT32 (.ok [0x00, 0x01, 0x00, 0x02])).2 =
      .ok (.u32s [65538]) := by
  refine ⟨u32_arr_length, fun c r i h => ?_, i32_arr_eq_map, f32_arr_eq, by decide⟩
  rw [u32_arr_getD c r i h, assemble32]

/-- C5, witness: the grouping facts at concrete inputs. -/
theorem C5_uint32_grouping_witness :
    (2 * 0 + 1 < ([(1 : Nat), 2]).length) ∧
    ((NewConverter .AB .WORD_1234).convertToUint32Array [1, 2]).getD 0 0 =
      ((1 : Nat) <<< 16 ||| 2) :=
  ⟨by decide, by
    have h := C5_uint32_grouping.2.1 (NewConverter .AB .WORD_1234) [1, 2] 0 (by decide)
    simpa using h⟩

/-! ## ASCII codec lemmas (C7) -/

theorem head?_dropWhile_not (p : Nat → Bool) :
    ∀ (l : List Nat) (a : Nat), (l.dropWhile p).head? = some a → p a = false
  | [], a, h => by simp at h
  | x :: xs, a, h => by
    by_cases hp : p x
    · rw [List.dropWhile_cons_of_pos hp] at h
      exact head?_dropWhile_not p xs a h
    · rw [List.dropWhile_cons_of_neg (by simpa using hp)] at h
      simp only [List.head?_cons, Option.some.injEq] at h
      subst h
      simpa using hp

theorem trimRightNul_getLast (l : List Nat) : (trimRightNul l).getLast? ≠ some 0 := by
  unfold trimRightNul
  rw [List.getLast?_reverse]
  intro h
  have h0 := head?_dropWhile_not (fun b => decide (b = 0)) l.reverse 0 h
  simp at h0

theorem trimRightNul_append (l : List Nat) :
    ∃ k, l = trimRightNul l ++ List.replicate k 0 := by
  refine ⟨((l.reverse.takeWhile (fun b => decide (b = 0))).reverse).length, ?_⟩
  unfold trimRightNul
  conv_lhs =>
    rw [← List.reverse_reverse l,
        ← List.takeWhile_append_dropWhile (p := fun b => decide (b = 0)) (l := l.reverse),
        List.reverse_append]
  congr 1
  have hall : ∀ b ∈ (l.reverse.takeWhile (fun b => decide (b = 0))).reverse, b = 0 := by
    intro b hb
    rw [List.mem_reverse] at hb
    simpa using List.mem_takeWhile_imp hb
  exact List.eq_replicate_of_mem hall

theorem shl8_or_eq (a b : Nat) (hb : b < 256) : a <<< 8 ||| b = 256 * a + b := by
  have hb' : b < 2 ^ 8 := by norm_num [hb]
  rw [Nat.shiftLeft_eq, Nat.mul_comm, ← Nat.mul_add_lt_is_or hb' a]

theorem and_FF (x : Nat) : x &&& 255 = x % 256 := by
  have h := Nat.and_pow_two_sub_one_eq_mod x 8
  norm_num at h
  exact h

theorem convertToBytes_cons (c : Converter) (reg : Nat) (regs : List Nat) :
    c.convertToBytes (reg :: regs) =
      (if c.byteOrder = .AB then [(reg >>> 8) % 256, reg &&& 0xFF]
       else [reg &&& 0xFF, (reg >>> 8) % 256]) ++ c.convertToBytes regs := rfl

theorem convertToBytes_pairBytes (c : Converter) :
    ∀ l : GoStr, (∀ b ∈ l, b < 256) → 2 ∣ l.length →
      c.convertToBytes (pairBytes c.byteOrder l) = l
  | [], _, _ => rfl
  | [_], _, hd => by simp only [List.length_cons, List.length_nil] at hd; omega
  | b0 :: b1 :: rest, hb, hd => by
    have h0 : b0 < 256 := hb b0 (by simp)
    have h1 : b1 < 256 := hb b1 (by simp)
    have hrest : 2 ∣ rest.length := by simp only [List.length_cons] at hd; omega
    have ih := convertToBytes_pairBytes c rest (fun x hx => hb x (by simp [hx])) hrest
    cases hbo : c.byteOrder <;> rw [hbo] at ih
    · simp only [pairBytes, hbo, if_pos rfl, convertToBytes_cons, ih]
      have e1 : (b0 <<< 8 ||| b1) >>> 8 % 256 = b0 := by
        rw [shl8_or_eq b0 b1 h1, shr_eq_div]; norm_num; omega
      have e2 : (b0 <<< 8 ||| b1) &&& 0xFF = b1 := by
        rw [shl8_or_eq b0 b1 h1, show (0xFF : Nat) = 255 from rfl, and_FF]; omega
      simp [e1, e2]
    · simp only [pairBytes, hbo, if_neg (by decide : ¬ ByteOrder.BA = ByteOrder.AB),
                 convertToBytes_cons, ih]
      have e1 : (b1 <<< 8 ||| b0) >>> 8 % 256 = b1 := by
        rw [shl8_or_eq b1 b0 h0, shr_eq_div]; norm_num; omega
      have e2 : (b1 <<< 8 ||| b0) &&& 0xFF = b0 := by
        rw [shl8_or_eq b1 b0 h0, show (0xFF : Nat) = 255 from rfl, and_FF]; omega
      simp [e1, e2]

/-- C7: convertToASCII assembles two bytes per register per the configured
ByteOrder and then trims only trailing NUL bytes — the result plus a block
of trailing NULs is exactly the assembled byte string, the result never
ends in a NUL, registers encoding "AB\x00\x00" decode to "AB", and an
embedded NUL (registers "A\x00" "B\x00") survives as [0x41, 0x00, 0x42];
and asciiToRegisters appends one zero byte to the (UTF-8) byte string when
its length is odd before pairing bytes into registers, so decoding the
produced registers back to bytes yields the input padded with one NUL
exactly when its length was odd. -/
theorem C7_ascii_codec (c : Converter) (regs : List Nat) (s : GoStr)
    (hs : ∀ b ∈ s, b < 256) :
    (∃ k, c.convertToBytes regs = c.convertToASCII regs ++ List.replicate k 0) ∧
    (c.convertToASCII regs).getLast? ≠ some 0 ∧
    c.convertToBytes (c.asciiToRegisters s) =
      (if s.length % 2 = 1 then s ++ [0] else s) ∧
    (NewConverter .AB .WORD_1234).convertToASCII [0x4142, 0x0000] = [0x41, 0x42] ∧
    (NewConverter .AB .WORD_1234).convertToASCII [0x4100, 0x4200] =
      [0x41, 0x00, 0x42] := by
  have hascii : c.convertToASCII regs = trimRightNul (c.convertToBytes regs) := rfl
  refine ⟨?_, ?_, ?_, by decide, by decide⟩
  · rw [hascii]
    exact trimRightNul_append (c.convertToBytes regs)
  · rw [hascii]
    exact trimRightNul_getLast (c.convertToBytes regs)
  · show c.convertToBytes
        (pairBytes c.byteOrder (if s.length % 2 ≠ 0 then s ++ [0] else s)) = _
    by_cases hodd : s.length % 2 = 1
    · rw [if_pos (by omega), if_pos hodd]
      refine convertToBytes_pairBytes c (s ++ [0]) ?_ ?_
      · intro b hb
        rcases List.mem_append.mp hb with h | h
        · exact hs b h
        · simp at h; omega
      · simp; omega
    · rw [if_neg (by omega), if_neg hodd]
      exact convertToBytes_pairBytes c s hs (by omega)

/-- C7, witness: the codec facts at a concrete converter, register array
and odd-length string. -/
theorem C7_ascii_codec_witness :
    (∀ b ∈ [(65 : Nat), 66, 67], b < 256) ∧
    (NewConverter .BA .WORD_1234).convertToBytes
        ((NewConverter .BA .WORD_1234).asciiToRegisters [65, 66, 67]) =
      [65, 66, 67, 0] :=
  ⟨by decide, by
    have h := (C7_ascii_codec (NewConverter .BA .WORD_1234) [] [65, 66, 67]
      (by decide)).2.2.1
    simpa using h⟩

/-! ## recordADU structure (C6, C8) -/

theorem recordADU_lastSent (c : Client) (p : List Nat) (resp : Option (List Nat))
    (sid : Nat) :
    (c.recordADU p resp sid).lastSentPacket = some (sentADUFor c p sid) := by
  cases h : c.connectionType <;> simp [Client.recordADU, h]

theorem recordADU_lastRecv (c : Client) (p : List Nat) (resp : Option (List Nat))
    (sid : Nat) :
    (c.recordADU p resp sid).lastReceivedPacket =
      resp.map (fun r => recvADUFor c p r sid) := by
  cases h : c.connectionType <;> simp [Client.recordADU, h]

theorem recordADU_connType (c : Client) (p : List Nat) (resp : Option (List Nat))
    (sid : Nat) :
    (c.recordADU p resp sid).connectionType = c.connectionType := by
  cases h : c.connectionType <;> simp [Client.recordADU, h]

theorem recordADU_tid (c : Client) (p : List Nat) (resp : Option (List Nat))
    (sid : Nat) (hT : c.connectionType = .TCP) :
    (c.recordADU p resp sid).transactionID = (c.transactionID + 1) % 65536 := by
  simp [Client.recordADU, hT]

/-- Transaction ID read back from the first two (big-endian) bytes of a
recorded MBAP frame. -/
def aduTID (p : List Nat) : Nat := p.getD 0 0 * 256 + p.getD 1 0

theorem tcpADU_tid (tid sid : Nat) (pdu : List Nat) (h : tid < 65536) :
    aduTID (tcpADU tid sid pdu) = tid := by
  simp [aduTID, tcpADU, u16be]
  omega

/-- C8: on a TCP connection the transaction ID recorded in the MBAP header
increases by exactly 1 modulo 65536 from one recorded request to the next
on the same client, and the recorded response ADU of a transaction carries
the same transaction ID as its request. -/
theorem C8_tcp_transaction_ids (c : Client) (p1 p2 : List Nat)
    (r1 r2 : Option (List Nat)) (s1 s2 : Nat)
    (hT : c.connectionType = .TCP) (hid : c.transactionID < 65536) :
    ((c.recordADU p1 r1 s1).lastSentPacket.map aduTID =
        some ((c.transactionID + 1) % 65536)) ∧
    (((c.recordADU p1 r1 s1).recordADU p2 r2 s2).lastSentPacket.map aduTID =
        some (((c.transactionID + 1) % 65536 + 1) % 65536)) ∧
    (∀ x, r1 = some x →
        (c.recordADU p1 r1 s1).lastReceivedPacket.map aduTID =
          (c.recordADU p1 r1 s1).lastSentPacket.map aduTID) := by
  have ht1 : (c.recordADU p1 r1 s1).connectionType = ConnectionType.TCP := by
    rw [recordADU_connType, hT]
  refine ⟨?_, ?_, ?_⟩
  · rw [recordADU_lastSent]
    simp [sentADUFor, hT]
    exact tcpADU_tid _ _ _ (Nat.mod_lt _ (by norm_num))
  · rw [recordADU_lastSent]
    simp [sentADUFor, ht1, recordADU_tid c p1 r1 s1 hT]
    exact tcpADU_tid _ _ _ (Nat.mod_lt _ (by norm_num))
  · intro x hx
    subst hx
    rw [recordADU_lastSent, recordADU_lastRecv]
    simp [sentADUFor, recvADUFor, hT]
    rw [tcpADU_tid _ _ _ (Nat.mod_lt _ (by norm_num)),
        tcpADU_tid _ _ _ (Nat.mod_lt _ (by norm_num))]

/-- C8, witness: two consecutive records on a fresh TCP client carry
transaction IDs 1 and 2, and the response header repeats the request ID. -/
theorem C8_tcp_transaction_ids_witness :
    (tcpClient.connectionType = ConnectionType.TCP ∧ tcpClient.transactionID < 65536) ∧
    ((tcpClient.recordADU [3] (some []) 1).lastSentPacket.map aduTID = some 1 ∧
     ((tcpClient.recordADU [3] (some []) 1).recordADU [3] none 1).lastSentPacket.map
        aduTID = some 2 ∧
     (tcpClient.recordADU [3] (some []) 1).lastReceivedPacket.map aduTID =
        (tcpClient.recordADU [3] (some []) 1).lastSentPacket.map aduTID) :=
  ⟨⟨by decide, by decide⟩, by
    have h := C8_tcp_transaction_ids tcpClient [3] [3] (some []) none 1 1
      (by decide) (by decide)
    exact ⟨by simpa using h.1, by simpa using h.2.1, h.2.2 [] rfl⟩⟩

/-- C6, counterexample to the claim as stated: a write invoked on a
connected client whose values fail conversion returns before recordADU, so
nothing is recorded — on a fresh connected client the last sent packet is
still nil (not the reconstructed request ADU) after the failed call. -/
theorem C6_write_conversion_failure_records_nothing :
    (tcpClient.WriteHoldingRegisters 1 0 (.bools [true]) (.ok [])).2 =
      .error .conversionFailed ∧
    (tcpClient.WriteHoldingRegisters 1 0 (.bools [true]) (.ok [])).1.GetLastPackets =
      (none, none) := by
  decide

/-- C6, amended: every read/write call made while connected that reaches
the transport — all four reads, and the two writes once input conversion
succeeds — records the fully reconstructed request ADU (MBAP header for
TCP, unit ID and CRC bytes for RTU) as the last sent packet, and the
reconstructed response ADU on success or nil on failure, the pair being
exposed via GetLastPackets; calls rejected by the connectivity guard and
writes whose conversion fails leave the pair untouched. -/
theorem C6_last_exchange_recording (c : Client) (sid a cnt : Nat) (dt : DataType)
    (tr : Except Unit (List Nat)) (vals : Value) (regs : List Nat) (bl : List Bool)
    (hc : c.isConnected = true)
    (hconv : c.converter.ConvertToRegisters vals = .ok regs) :
    ((c.ReadHoldingRegisters sid a cnt dt tr).1.GetLastPackets =
      (some (sentADUFor c (readPDU 0x03 a cnt) sid),
       match tr with
       | .ok res => some (recvADUFor c (readPDU 0x03 a cnt) res sid)
       | .error _ => none)) ∧
    ((c.ReadInputRegisters sid a cnt dt tr).1.GetLastPackets =
      (some (sentADUFor c (readPDU 0x04 a cnt) sid),
       match tr with
       | .ok res => some (recvADUFor c (readPDU 0x04 a cnt) res sid)
       | .error _ => none)) ∧
    ((c.ReadCoils sid a cnt tr).1.GetLastPackets =
      (some (sentADUFor c (readPDU 0x01 a cnt) sid),
       match tr with
       | .ok res => some (recvADUFor c (readPDU 0x01 a cnt) res sid)
       | .error _ => none)) ∧
    ((c.ReadDiscreteInputs sid a cnt tr).1.GetLastPackets =
      (some (sentADUFor c (readPDU 0x02 a cnt) sid),
       match tr with
       | .ok res => some (recvADUFor c (readPDU 0x02 a cnt) res sid)
       | .error _ => none)) ∧
    ((c.WriteHoldingRegisters sid a vals tr).1.GetLastPackets =
      (some (sentADUFor c (holdingWritePDU a regs) sid),
       match tr with
       | .ok res => some (recvADUFor c (holdingWritePDU a regs) res sid)
       | .error _ => none)) ∧
    ((c.WriteCoils sid a bl tr).1.GetLastPackets =
      (some (sentADUFor c (coilWritePDU a bl) sid),
       match tr with
       | .ok res => some (recvADUFor c (coilWritePDU a bl) res sid)
       | .error _ => none)) := by
  refine ⟨?_, ?_, ?_, ?_, ?_, ?_⟩ <;>
    cases tr <;>
      simp [Client.ReadHoldingRegisters, Client.ReadInputRegisters,
            Client.ReadCoils, Client.ReadDiscreteInputs,
            Client.WriteHoldingRegisters, Client.WriteCoils,
            Client.GetLastPackets, hc, hconv,
            recordADU_lastSent, recordADU_lastRecv]

/-- C6, witness: the amended recording behaviour at a concrete connected
client, with a successful read and a successful converted write. -/
theorem C6_last_exchange_recording_witness :
    (tcpClient.isConnected = true ∧
     tcpClient.converter.ConvertToRegisters (.u16s [7]) = .ok [7]) ∧
    (tcpClient.ReadHoldingRegisters 1 0 1 .UINT16 (.ok [0, 7])).1.GetLastPackets =
      (some (sentADUFor tcpClient (readPDU 0x03 0 1) 1),
       some (recvADUFor tcpClient (readPDU 0x03 0 1) [0, 7] 1)) :=
  ⟨⟨by decide, by decide⟩,
   (C6_last_exchange_recording tcpClient 1 0 1 .UINT16 (.ok [0, 7]) (.u16s [7])
      [7] [] (by decide) (by decide)).1⟩

/-! ## Coil bit unpacking (C9) -/

theorem coilBools_eq_map (count : Nat) (results : List Nat) :
    coilBools count results =
      (List.range (min count (8 * results.length))).map
        (fun i => results.getD (i / 8) 0 &&& (1 <<< (i % 8)) != 0) := by
  induction count with
  | zero => simp [coilBools]
  | succ n ih =>
    rw [coilBools] at ih ⊢
    rw [List.range_succ, List.filterMap_append]
    by_cases h : n / 8 < results.length
    · have hmin1 : min (n + 1) (8 * results.length) =
          min n (8 * results.length) + 1 := by omega
      have hminn : min n (8 * results.length) = n := by omega
      rw [hmin1, List.range_succ, List.map_append, ih, hminn]
      simp [h]
    · have hmin : min (n + 1) (8 * results.length) =
          min n (8 * results.length) := by omega
      rw [hmin, ← ih]
      simp [h]

theorem coilBools_length (count : Nat) (results : List Nat) :
    (coilBools count results).length = min count (8 * results.length) := by
  rw [coilBools_eq_map]
  simp

theorem coilBools_getD (count : Nat) (results : List Nat) (i : Nat)
    (hi : i < min count (8 * results.length)) :
    (coilBools count results).getD i false =
      (results.getD (i / 8) 0 &&& (1 <<< (i % 8)) != 0) := by
  rw [coilBools_eq_map]
  simp only [List.getD_eq_getElem?_getD, List.getElem?_map,
             List.getElem?_range hi, Option.map_some']
  rfl

/-- C9: a successful ReadCoils or ReadDiscreteInputs with count n returns
the list coilBools n bytes, whose length is min(n, 8·(number of response
payload bytes)) — silently shortened, not padded or rejected, when fewer
than ceil(n/8) bytes came back — and whose element 8k+j (j < 8) is bit j
of response byte k. -/
theorem C9_coil_unpacking (c : Client) (sid a count : Nat)
    (results : List Nat) (hc : c.isConnected = true) :
    ((c.ReadCoils sid a count (.ok results)).2 = .ok (coilBools count results)) ∧
    ((c.ReadDiscreteInputs sid a count (.ok results)).2 =
        .ok (coilBools count results)) ∧
    ((coilBools count results).length = min count (8 * results.length)) ∧
    (∀ k j, j < 8 → 8 * k + j < (coilBools count results).length →
        (coilBools count results).getD (8 * k + j) false =
          (results.getD k 0 &&& (1 <<< j) != 0)) := by
  refine ⟨by simp [Client.ReadCoils, hc], by simp [Client.ReadDiscreteInputs, hc],
          coilBools_length count results, fun k j hj hlt => ?_⟩
  rw [coilBools_length] at hlt
  rw [coilBools_getD count results _ hlt]
  have e1 : (8 * k + j) / 8 = k := by omega
  have e2 : (8 * k + j) % 8 = j := by omega
  rw [e1, e2]

/-- C9, witness: a two-byte response truncates a count of 20 to 16 booleans
and bit 1 of byte 1 is read as element 9. -/
theorem C9_coil_unpacking_witness :
    (tcpClient.isConnected = true) ∧
    ((tcpClient.ReadCoils 1 0 20 (.ok [0xFF, 0x02])).2 =
        .ok (coilBools 20 [0xFF, 0x02]) ∧
     (coilBools 20 [0xFF, 0x02]).length = 16 ∧
     (coilBools 20 [0xFF, 0x02]).getD 9 false = true) :=
  ⟨by decide, by
    have h := C9_coil_unpacking tcpClient 1 0 20 [0xFF, 0x02] (by decide)
    refine ⟨h.1, by simpa using h.2.2.1, ?_⟩
    have h9 := h.2.2.2 1 1 (by decide) (by simpa [h.2.2.1] using (by decide : (9:Nat) < 16))
    simpa using h9⟩

/-! ## ParseStringToType (C10) -/

/-- strings.Split(s, ","): split around every comma; the empty string
yields one empty part. -/
def splitComma : GoStr → List GoStr
  | [] => [[]]
  | c :: rest =>
    match splitComma rest with
    | [] => [[]]
    | h :: t => if c = 44 then [] :: h :: t else (c :: h) :: t

/-- strings.TrimSpace, restricted to the ASCII whitespace bytes (the Go
function also trims non-ASCII Unicode spaces, which these byte strings do
not contain). -/
def isGoSpace (b : Nat) : Bool :=
  b == 32 || b == 9 || b == 10 || b == 11 || b == 12 || b == 13

/-- TrimSpace over the byte string. -/
def trimSpace (s : GoStr) : GoStr :=
  ((s.dropWhile isGoSpace).reverse.dropWhile isGoSpace).reverse

/-- ASCII decimal digit. -/
def isDigit (b : Nat) : Bool := decide (48 ≤ b) && decide (b ≤ 57)

/-- ASCII hexadecimal digit. -/
def isHexDigit (b : Nat) : Bool :=
  isDigit b || (decide (97 ≤ b) && decide (b ≤ 102)) ||
    (decide (65 ≤ b) && decide (b ≤ 70))

/-- Value of a nonempty all-digit byte string, else none. -/
def digitsVal : GoStr → Option Nat
  | [] => none
  | ds =>
    if ds.all isDigit then
      some (ds.foldl (fun acc d => acc * 10 + (d - 48)) 0)
    else none

/-- strconv.ParseUint(s, 10, bits): digits only (no sign), range-checked. -/
def goParseUint (s : GoStr) (bits : Nat) : Option Nat :=
  match digitsVal s with
  | none => none
  | some v => if v < 2 ^ bits then some v else none

/-- strconv.ParseInt(s, 10, bits): optional sign, digits, range-checked. -/
def goParseInt (s : GoStr) (bits : Nat) : Option Int :=
  match s with
  | 43 :: rest =>
    (digitsVal rest).bind fun v =>
      if (v : Int) ≤ 2 ^ (bits - 1) - 1 then some (v : Int) else none
  | 45 :: rest =>
    (digitsVal rest).bind fun v =>
      if (v : Int) ≤ 2 ^ (bits - 1) then some (-(v : Int)) else none
  | _ =>
    (digitsVal s).bind fun v =>
      if (v : Int) ≤ 2 ^ (bits - 1) - 1 then some (v : Int) else none

/-- strconv.ParseBool: the twelve accepted literals. -/
def goParseBool (s : GoStr) : Option Bool :=
  if s = [49] ∨ s = [116] ∨ s = [84] ∨ s = [116, 114, 117, 101] ∨
     s = [84, 82, 85, 69] ∨ s = [84, 114, 117, 101] then some true
  else if s = [48] ∨ s = [102] ∨ s = [70] ∨ s = [102, 97, 108, 115, 101] ∨
          s = [70, 65, 76, 83, 69] ∨ s = [70, 97, 108, 115, 101] then some false
  else none

/-- ASCII lower-casing of one byte. -/
def toLowerByte (b : Nat) : Nat := if 65 ≤ b ∧ b ≤ 90 then b + 32 else b

/-- Optional leading sign stripped. -/
def stripSign : GoStr → GoStr
  | 43 :: rest => rest
  | 45 :: rest => rest
  | l => l

/-- Split at the first occurrence of any byte in `targets`. -/
def splitAtByte (targets : List Nat) : GoStr → GoStr × Option GoStr
  | [] => ([], none)
  | c :: rest =>
    if c ∈ targets then ([], some rest)
    else
      let p := splitAtByte targets rest
      (c :: p.1, p.2)

/-- Mantissa shape: digits, digits.digits, digits. or .digits — at least
one digit overall. -/
def mantOk (dig : Nat → Bool) (l : GoStr) : Bool :=
  match splitAtByte [46] l with
  | (intPart, none) => !intPart.isEmpty && intPart.all dig
  | (intPart, some fracPart) =>
    intPart.all dig && fracPart.all dig &&
      (!intPart.isEmpty || !fracPart.isEmpty)

/-- Exponent shape: optional sign then nonempty digits. -/
def expOk (l : GoStr) : Bool :=
  match l with
  | 43 :: rest => !rest.isEmpty && rest.all isDigit
  | 45 :: rest => !rest.isEmpty && rest.all isDigit
  | _ => !l.isEmpty && l.all isDigit

/-- Decimal float body: mantissa with optional e/E exponent. -/
def decimalOk (body : GoStr) : Bool :=
  match splitAtByte [101, 69] body with
  | (mant, none) => mantOk isDigit mant
  | (mant, some e) => mantOk isDigit mant && expOk e

/-- Syntax acceptance of strconv.ParseFloat: optional sign; inf, infinity
or (unsigned) nan case-insensitively; 0x/0X hex mantissa with mandatory
p/P exponent; else decimal mantissa with optional e/E exponent.  The
numeric value is IEEE-754 decimal conversion and is not modelled, nor are
Go 1.13 digit-grouping underscores (no claim depends on either). -/
def goFloatSyntaxOk (s : GoStr) : Bool :=
  if s.map toLowerByte = [110, 97, 110] then true
  else
    let body := stripSign s
    if body.map toLowerByte = [105, 110, 102] ∨
       body.map toLowerByte = [105, 110, 102, 105, 110, 105, 116, 121] then true
    else
      match body with
      | 48 :: x :: rest =>
        if x = 120 ∨ x = 88 then
          match splitAtByte [112, 80] rest with
          | (_, none) => false
          | (mant, some e) => mantOk isHexDigit mant && expOk e
        else decimalOk body
      | _ => decimalOk body

/-- Result values of ParseStringToType (`interface\x7b\x7d` in Go).  For
FLOAT32/FLOAT64 Go stores the IEEE-754 conversion of each token, which the
embedding does not model numerically; the accepted tokens are kept. -/
inductive ParsedValue where
  | i16s (xs : List Int)
  | u16s (xs : List Nat)
  | i32s (xs : List Int)
  | u32s (xs : List Nat)
  | i64s (xs : List Int)
  | u64s (xs : List Nat)
  | f32toks (toks : List GoStr)
  | f64toks (toks : List GoStr)
  | str (s : GoStr)
  | bools (xs : List Bool)
deriving DecidableEq, Repr

/-- The per-token loop shared by every branch: TrimSpace then parse, the
first unparsable token named (untrimmed) in the error. -/
def parseTokens {α : Type} (dt : DataType) (f : GoStr → Option α) :
    List GoStr → Except GoError (List α)
  | [] => .ok []
  | p :: ps =>
    match f (trimSpace p) with
    | none => .error (.invalidValue dt p)
    | some v =>
      match parseTokens dt f ps with
      | .error e => .error e
      | .ok vs => .ok (v :: vs)

/-- One typed branch of ParseStringToType: run the token loop and wrap the
parsed list in its ParsedValue constructor, propagating the error. -/
def wrapParsed {α : Type} (dt : DataType) (f : GoStr → Option α)
    (g : List α → ParsedValue) (parts : List GoStr) : Except GoError ParsedValue :=
  match parseTokens dt f parts with
  | .error e => .error e
  | .ok vs => .ok (g vs)

/-- ParseStringToType from pkg/datatypes: split on commas, guard against an
empty part list, then parse each token per the target type; ASCII passes
the whole text through; BYTE and UNIX_TIMESTAMP hit the default
unsupported branch. -/
def ParseStringToType (valueStr : GoStr) (dataType : DataType) :
    Except GoError ParsedValue :=
  let parts := splitComma valueStr
  if parts = [] then .error .emptyValueString
  else
    match dataType with
    | .INT16 => wrapParsed .INT16 (fun t => goParseInt t 16) .i16s parts
    | .UINT16 => wrapParsed .UINT16 (fun t => goParseUint t 16) .u16s parts
    | .INT32 => wrapParsed .INT32 (fun t => goParseInt t 32) .i32s parts
    | .UINT32 => wrapParsed .UINT32 (fun t => goParseUint t 32) .u32s parts
    | .INT64 => wrapParsed .INT64 (fun t => goParseInt t 64) .i64s parts
    | .UINT64 => wrapParsed .UINT64 (fun t => goParseUint t 64) .u64s parts
    | .FLOAT32 =>
      wrapParsed .FLOAT32 (fun t => if goFloatSyntaxOk t then some t else none)
        .f32toks parts
    | .FLOAT64 =>
      wrapParsed .FLOAT64 (fun t => if goFloatSyntaxOk t then some t else none)
        .f64toks parts
    | .ASCII => .ok (.str valueStr)
    | .BOOL => wrapParsed .BOOL goParseBool .bools parts
    | .BYTE => .error (.unsupportedParse dataType)
    | .UNIX_TIMESTAMP => .error (.unsupportedParse dataType)

theorem splitComma_ne_nil : ∀ s : GoStr, splitComma s ≠ []
  | [] => by simp [splitComma]
  | c :: rest => by
    cases hs : splitComma rest with
    | nil => simp [splitComma, hs]
    | cons h t => by_cases hc : c = 44 <;> simp [splitComma, hs, hc]

theorem splitComma_no_comma : ∀ s : GoStr, (44 : Nat) ∉ s → splitComma s = [s]
  | [] => fun _ => rfl
  | c :: rest => fun h => by
    have hc : c ≠ 44 := fun e => h (by simp [e])
    have hr := splitComma_no_comma rest (fun m => h (by simp [m]))
    simp [splitComma, hr, hc]

theorem parseTokens_ne_empty {α : Type} (dt : DataType) (f : GoStr → Option α) :
    ∀ ps : List GoStr, parseTokens dt f ps ≠ .error .emptyValueString
  | [] => by simp [parseTokens]
  | p :: ps => by
    simp only [parseTokens]
    cases f (trimSpace p) with
    | none => simp
    | some v =>
      cases hrec : parseTokens dt f ps with
      | error e =>
        have hne := parseTokens_ne_empty dt f ps
        rw [hrec] at hne
        simpa using hne
      | ok vs => simp

theorem wrapParsed_ne_empty {α : Type} (dt : DataType) (f : GoStr → Option α)
    (g : List α → ParsedValue) (ps : List GoStr) :
    wrapParsed dt f g ps ≠ .error .emptyValueString := by
  unfold wrapParsed
  cases hrec : parseTokens dt f ps with
  | error e =>
    have hne := parseTokens_ne_empty dt f ps
    rw [hrec] at hne
    simpa using hne
  | ok vs => simp

/-- C10: the "value string is empty" branch of ParseStringToType is
unreachable — splitting any text on commas yields at least one part — and
an input with no comma that trims to empty (empty or all-whitespace) for
any numeric or boolean target type produces the per-token error naming
that (empty-after-trim) token. -/
theorem C10_empty_branch_unreachable (dt : DataType) (s : GoStr)
    (hdt : dt = .INT16 ∨ dt = .UINT16 ∨ dt = .INT32 ∨ dt = .UINT32 ∨
           dt = .INT64 ∨ dt = .UINT64 ∨ dt = .FLOAT32 ∨ dt = .FLOAT64 ∨
           dt = .BOOL)
    (hnc : (44 : Nat) ∉ s) (hws : trimSpace s = []) :
    (∀ (dt' : DataType) (s' : GoStr),
        ParseStringToType s' dt' ≠ .error .emptyValueString) ∧
    ParseStringToType s dt = .error (.invalidValue dt s) := by
  constructor
  · intro dt' s'
    unfold ParseStringToType
    rw [if_neg (by simpa using splitComma_ne_nil s')]
    cases dt' <;>
      first
        | exact wrapParsed_ne_empty _ _ _ _
        | simp
  · have hsplit := splitComma_no_comma s hnc
    rcases hdt with h | h | h | h | h | h | h | h | h <;> subst h <;>
      · unfold ParseStringToType
        rw [if_neg (by simpa using splitComma_ne_nil s), hsplit]
        simp [wrapParsed, parseTokens, hws, goParseInt, goParseUint,
              goParseBool, digitsVal, goFloatSyntaxOk, stripSign, decimalOk,
              splitAtByte, mantOk]

/-- C10, witness: the empty input with target INT16. -/
theorem C10_empty_branch_unreachable_witness :
    ((44 : Nat) ∉ ([] : GoStr) ∧ trimSpace [] = []) ∧
    (ParseStringToType [] .UINT16 ≠ .error .emptyValueString ∧
     ParseStringToType [] .INT16 = .error (.invalidValue .INT16 [])) :=
  ⟨⟨by decide, rfl⟩,
   ⟨(C10_empty_branch_unreachable .INT16 [] (by decide) (by decide) rfl).1 .UINT16 [],
    (C10_empty_branch_unreachable .INT16 [] (by decide) (by decide) rfl).2⟩⟩

end ModbusBaby
